import Mathlib

/-!
Shallow embedding of `src/octree/batch_iterator.rs` from the point_cloud_viewer
repository.  Double- and single-precision machine floats (positions,
intensities) are modelled as exact rationals; the geometric types of the
external `math` module (`Isometry3`, the culling shapes) are modelled from the
spec, as noted on each definition.
-/

/-- Modelled from the spec: a 3-vector of coordinates (`Vector3<f64>` from the
external cgmath crate), with exact rational coordinates. -/
structure V3 where
  x : ℚ
  y : ℚ
  z : ℚ
deriving DecidableEq

def V3.add (a b : V3) : V3 := ⟨a.x + b.x, a.y + b.y, a.z + b.z⟩

def V3.neg (a : V3) : V3 := ⟨-a.x, -a.y, -a.z⟩

/-- Modelled from the spec: a 3x3 matrix, the rotation part of the rigid
transforms of the external math module. -/
structure Mat3 where
  a11 : ℚ
  a12 : ℚ
  a13 : ℚ
  a21 : ℚ
  a22 : ℚ
  a23 : ℚ
  a31 : ℚ
  a32 : ℚ
  a33 : ℚ
deriving DecidableEq

def Mat3.mulVec (m : Mat3) (v : V3) : V3 :=
  ⟨m.a11 * v.x + m.a12 * v.y + m.a13 * v.z,
   m.a21 * v.x + m.a22 * v.y + m.a23 * v.z,
   m.a31 * v.x + m.a32 * v.y + m.a33 * v.z⟩

def Mat3.transpose (m : Mat3) : Mat3 :=
  ⟨m.a11, m.a21, m.a31, m.a12, m.a22, m.a32, m.a13, m.a23, m.a33⟩

def Mat3.mul (m n : Mat3) : Mat3 :=
  ⟨m.a11 * n.a11 + m.a12 * n.a21 + m.a13 * n.a31,
   m.a11 * n.a12 + m.a12 * n.a22 + m.a13 * n.a32,
   m.a11 * n.a13 + m.a12 * n.a23 + m.a13 * n.a33,
   m.a21 * n.a11 + m.a22 * n.a21 + m.a23 * n.a31,
   m.a21 * n.a12 + m.a22 * n.a22 + m.a23 * n.a32,
   m.a21 * n.a13 + m.a22 * n.a23 + m.a23 * n.a33,
   m.a31 * n.a11 + m.a32 * n.a21 + m.a33 * n.a31,
   m.a31 * n.a12 + m.a32 * n.a22 + m.a33 * n.a32,
   m.a31 * n.a13 + m.a32 * n.a23 + m.a33 * n.a33⟩

def Mat3.id : Mat3 := ⟨1, 0, 0, 0, 1, 0, 0, 0, 1⟩

/-- Modelled from the spec: `Isometry3<f64>` of the external math module, a
rigid transform given by a rotation and a translation, acting on a point as
x ↦ R x + t. -/
structure Isometry3 where
  rotation : Mat3
  translation : V3
deriving DecidableEq

/-- Application of a rigid transform to a point; in the source this is the
multiplication operator `local_from_global * &point.position`. -/
def Isometry3.apply (g : Isometry3) (p : V3) : V3 :=
  (g.rotation.mulVec p).add g.translation

/-- Modelled from the spec: the inverse of a rigid transform, x ↦ Rᵀ x - Rᵀ t
(the rotation of a rigid transform is orthogonal, so its inverse is its
transpose). -/
def Isometry3.inverse (g : Isometry3) : Isometry3 :=
  ⟨g.rotation.transpose, (g.rotation.transpose.mulVec g.translation).neg⟩

/-- Rigidity of a transform: its rotation part is orthogonal. -/
def Isometry3.IsRigid (g : Isometry3) : Prop :=
  g.rotation.mul g.rotation.transpose = Mat3.id ∧
    g.rotation.transpose.mul g.rotation = Mat3.id

/-- A point's color, four unsigned byte channels (red, green, blue, alpha). -/
structure Color where
  red : Nat
  green : Nat
  blue : Nat
  alpha : Nat
deriving DecidableEq

/-- The `Vector4<u8>` built by `Vector4::new(red, green, blue, alpha)`. -/
structure V4u8 where
  c1 : Nat
  c2 : Nat
  c3 : Nat
  c4 : Nat
deriving DecidableEq

/-- One sample yielded by octree traversal: a position, a color and an
optional intensity. -/
structure Point where
  position : V3
  color : Color
  intensity : Option ℚ
deriving DecidableEq

/-- Tagged union over attribute storage kinds: `U8Vec4` for color values,
`F32` for intensity values. -/
inductive LayerData where
  | U8Vec4 (values : List V4u8)
  | F32 (values : List ℚ)
deriving DecidableEq

/-- The batch shape delivered to the consumer: positions plus a map from
layer name to the layer's values.  The `FnvHashMap` of the source is modelled
as an association list with unique keys in insertion order. -/
structure PointData where
  position : List V3
  layers : List (String × LayerData)
deriving DecidableEq

/-- Look a layer up by name in a batch. -/
def PointData.getLayer (pd : PointData) (key : String) : Option LayerData :=
  pd.layers.lookup key

/-- size for batch -/
def NUM_POINTS_PER_BATCH : Nat := 500000

/-- Modelled from the spec: the `PointCulling` trait of the external math
module — "any polymorphic predicate with a transform operation"; only the
containment test is relevant to the claims. -/
structure PointCulling where
  contains : V3 → Bool

/-- Modelled from the spec: `AllPoints {}`, the identity region whose
containment test always succeeds. -/
def AllPoints : PointCulling := ⟨fun _ => true⟩

/-- Modelled from the spec: re-express a culling region under a rigid
transform; the containment test of the transformed region agrees with the
test of the original region at the transported point. -/
def PointCulling.transform (c : PointCulling) (g : Isometry3) : PointCulling :=
  ⟨fun p => c.contains (g.apply p)⟩

/-- The five query shapes.  The payloads of the non-AllPoints shapes
(`Aabb3<f64>`, `Matrix4<f64>`, `Obb<f64>`, `OrientedBeam<f64>`) are external
geometric types whose intersection math is out of scope; each is modelled
from the spec by the containment predicate its culling object exposes. -/
inductive PointLocation where
  | AllPoints : PointLocation
  | Aabb (contains : V3 → Bool) : PointLocation
  | Frustum (contains : V3 → Bool) : PointLocation
  | Obb (contains : V3 → Bool) : PointLocation
  | OrientedBeam (contains : V3 → Bool) : PointLocation

/-- The immutable query: a location and an optional rigid transform mapping
the octree's global frame into a caller-chosen local frame. -/
structure PointQuery where
  location : PointLocation
  global_from_local : Option Isometry3

/-- The second match of `get_point_culling`: apply `global_from_local` to the
shape's culling object when the query carries one. -/
def applyGlobalFromLocal (culling : PointCulling) (gfl : Option Isometry3) : PointCulling :=
  match gfl with
  | some global_from_local => culling.transform global_from_local
  | none => culling

/-- Translation of `PointQuery::get_point_culling`.  The `AllPoints` arm
mirrors the source's early `return Box::new(AllPoints {})`, which skips the
`global_from_local` match entirely. -/
def PointQuery.get_point_culling (q : PointQuery) : PointCulling :=
  match q.location with
  | PointLocation.AllPoints => AllPoints
  | PointLocation.Aabb c => applyGlobalFromLocal ⟨c⟩ q.global_from_local
  | PointLocation.Frustum c => applyGlobalFromLocal ⟨c⟩ q.global_from_local
  | PointLocation.Obb c => applyGlobalFromLocal ⟨c⟩ q.global_from_local
  | PointLocation.OrientedBeam c => applyGlobalFromLocal ⟨c⟩ q.global_from_local

/-- State of the batch accumulator `PointStream`.  The three `Vec`s are
modelled as lists plus the field `cap`, the capacity they were created with
(`Vec::with_capacity`); for `cap ≥ 1` the accumulator keeps every buffer at
length at most `cap`, so the Rust vectors never grow and `position.capacity()`
stays equal to `cap`.  The sink closure `func` is passed to the operations as
an explicit argument instead of being stored. -/
structure PointStream where
  position : List V3
  color : List V4u8
  intensity : List ℚ
  local_from_global : Option Isometry3
  cap : Nat
deriving DecidableEq

/-- Translation of `PointStream::new`. -/
def PointStream.new (num_points_per_batch : Nat)
    (local_from_global : Option Isometry3) : PointStream :=
  ⟨[], [], [], local_from_global, num_points_per_batch⟩

/-- The position stored by `push_point`: the local-frame projection of the
point's global position when a transform is configured. -/
def localPosition (local_from_global : Option Isometry3) (p : V3) : V3 :=
  match local_from_global with
  | some local_from_global => local_from_global.apply p
  | none => p

/-- push point in batch (translation of `PointStream::push_point`) -/
def PointStream.push_point (s : PointStream) (point : Point) : PointStream :=
  { s with
    position := s.position ++ [localPosition s.local_from_global point.position],
    color := s.color ++
      [⟨point.color.red, point.color.green, point.color.blue, point.color.alpha⟩],
    intensity :=
      match point.intensity with
      | some point_intensity => s.intensity ++ [point_intensity]
      | none => s.intensity }

/-- The layer map assembled by `PointStream::callback`: the color layer is
always inserted; the intensity layer only when its buffer is non-empty. -/
def layersOf (s : PointStream) : List (String × LayerData) :=
  ("color", LayerData.U8Vec4 s.color) ::
    (if s.intensity = [] then []
     else [("intensity", LayerData.F32 s.intensity)])

/-- The `PointData` assembled by `PointStream::callback` from the buffered
values (`split_off(0)` hands the whole buffer over). -/
def emittedData (s : PointStream) : PointData := ⟨s.position, layersOf s⟩

/-- execute function on batch of points (translation of
`PointStream::callback`).  `split_off(0)` takes the whole buffer and leaves it
empty; the emitted batch is returned alongside the new state so that the claims
can talk about what was passed to the sink (`none` means the sink was not
invoked). -/
def PointStream.callback {ε : Type} (s : PointStream)
    (sink : PointData → Except ε Unit) :
    PointStream × Option PointData × Except ε Unit :=
  if s.position = [] then (s, none, Except.ok ())
  else
    ({ s with position := [], color := [], intensity := [] },
      some (emittedData s), sink (emittedData s))

/-- Translation of `PointStream::push_point_and_callback`.  The source
compares `position.len()` against `position.capacity()`, which equals `cap`
as long as the buffers never outgrow the construction capacity (true for
`cap ≥ 1`, see `PointStream`). -/
def PointStream.push_point_and_callback {ε : Type} (s : PointStream)
    (sink : PointData → Except ε Unit) (point : Point) :
    PointStream × Option PointData × Except ε Unit :=
  let s2 := s.push_point point
  if s2.position.length = s2.cap then s2.callback sink
  else (s2, none, Except.ok ())

/-- A sink that always succeeds; used to drive the accumulator when the
claims only concern the emitted batches and the buffer state. -/
def okSink : PointData → Except Unit Unit := fun _ => Except.ok ()

/-- The per-worker point loop of `try_for_each_batch` restricted to its
accumulator effects: push every point through `push_point_and_callback` and
collect the batches emitted along the way. -/
def streamRun : PointStream → List Point → PointStream × List PointData
  | s, [] => (s, [])
  | s, point :: rest =>
    let step := s.push_point_and_callback okSink point
    let tail := streamRun step.1 rest
    (tail.1, step.2.1.toList ++ tail.2)

/-- Every batch a stream delivers on a given point sequence: the batches
emitted while pushing plus the batch of the final flush, if any. -/
def allBatches (cap : Nat) (lfg : Option Isometry3) (pts : List Point) :
    List PointData :=
  let r := streamRun (PointStream.new cap lfg) pts
  r.2 ++ ((r.1.callback okSink).2.1).toList

/-- The error the worker manufactures from a failed send
(`ErrorKind::Grpc.into()`, line 183). -/
inductive ChannelError where
  | grpc
deriving DecidableEq

/-- Translation of the worker's `send_func` (lines 177-187): the k-th send
succeeds iff the receiving end is still alive, abstracted by `sendOk k`; a
failed send is mapped to the Grpc error.  The sleep and the println of the
source have no effect on the returned value. -/
def send_func (sendOk : Nat → Bool) (k : Nat) : PointData → Except ChannelError Unit :=
  fun _ => if sendOk k then Except.ok () else Except.error ChannelError.grpc

/-- How a worker thread of `try_for_each_batch` terminates.
`done`: fell off the end of the closure.
`earlyReturn`: the `Err(err) => return ()` arm at line 193 — note it carries
no error payload, because the source discards `err` and returns unit.
`panicked`: the `.unwrap()` at line 196 on a failed final flush. -/
inductive WorkerExit where
  | done
  | earlyReturn
  | panicked
deriving DecidableEq

/-- Translation of the worker closure body (lines 175-197): feed every point
of the node through the accumulator, then flush-and-unwrap.  `k` counts sends
so far, `sent` accumulates the batches actually delivered to the channel. -/
def workerLoop (sendOk : Nat → Bool) :
    PointStream → Nat → List PointData → List Point → WorkerExit × List PointData
  | s, k, sent, [] =>
    match s.callback (send_func sendOk k) with
    | (_, none, _) => (WorkerExit.done, sent)
    | (_, some pd, Except.ok _) => (WorkerExit.done, sent ++ [pd])
    | (_, some _, Except.error _) => (WorkerExit.panicked, sent)
  | s, k, sent, point :: rest =>
    match s.push_point_and_callback (send_func sendOk k) point with
    | (s2, none, _) => workerLoop sendOk s2 k sent rest
    | (s2, some pd, Except.ok _) => workerLoop sendOk s2 (k + 1) (sent ++ [pd]) rest
    | (_, some _, Except.error _) => (WorkerExit.earlyReturn, sent)

/-- One worker of `try_for_each_batch`: a fresh accumulator of capacity
`batch_size` over the node's point sequence. -/
def workerRun (batch_size : Nat) (local_from_global : Option Isometry3)
    (sendOk : Nat → Bool) (pts : List Point) : WorkerExit × List PointData :=
  workerLoop sendOk (PointStream.new batch_size local_from_global) 0 [] pts

/-- Model of the consumer `rx.iter().try_for_each(func)` (line 199):
`arrivals` are the batches delivered to the channel, processed in order; an
error from `onBatch` returns immediately.  After the last arrival `rx.iter()`
blocks until every `Sender` is dropped; `origSenderDropped` says whether the
original `tx` is dropped before the drain (in the source it never is), and
`none` models blocking forever. -/
def consumerLoop {ε : Type} (onBatch : PointData → Except ε Unit)
    (origSenderDropped : Bool) : List PointData → Option (Except ε Unit)
  | [] => if origSenderDropped then some (Except.ok ()) else none
  | b :: rest =>
    match onBatch b with
    | Except.ok _ => consumerLoop onBatch origSenderDropped rest
    | Except.error e => some (Except.error e)

/-- Translation of lines 153-157: `try_for_each_batch` derives the
accumulator transform as the inverse of the query's `global_from_local`. -/
def derivedLocalFromGlobal (q : PointQuery) : Option Isometry3 :=
  q.global_from_local.map Isometry3.inverse

/-- Model of `try_for_each_batch` under the schedule in which every worker
runs to completion (all of its sends succeeding) before the consumer drains —
an admissible schedule whenever at most 100 batches are produced, the
capacity of the `sync_channel`, and the callback never fails.  `node_points`
is the flattened work list: the point sequence of each matching (octree,
node) pair.  The consumer is run with `origSenderDropped := false` because
the source never drops the original `tx` before `rx.iter()`. -/
def tryForEachBatchSeq {ε : Type} (q : PointQuery) (batch_size : Nat)
    (node_points : List (List Point)) (onBatch : PointData → Except ε Unit) :
    Option (Except ε Unit) :=
  let lfg := derivedLocalFromGlobal q
  let arrivals :=
    (node_points.map fun pts => (workerRun batch_size lfg (fun _ => true) pts).2).flatten
  consumerLoop onBatch false arrivals

/-- Outcome of the whole call as seen by the caller. -/
inductive CallResult (ε : Type) where
  | panicked
  | hung
  | returned (r : Except ε Unit)

/-- Model of `crossbeam::scope(..).expect(..)` (lines 200-201): if any worker
thread panicked, the scope returns an error and the `.expect` panics the whole
call; otherwise the consumer's outcome is the call's outcome. -/
def scopeJoin {ε : Type} (exits : List WorkerExit)
    (consumer : Option (Except ε Unit)) : CallResult ε :=
  if exits.any fun e => match e with | WorkerExit.panicked => true | _ => false then
    CallResult.panicked
  else
    match consumer with
    | none => CallResult.hung
    | some r => CallResult.returned r

/-- Sample point carrying an intensity. -/
def pA : Point := ⟨⟨0, 0, 0⟩, ⟨1, 2, 3, 4⟩, some 5⟩

/-- Sample point without an intensity. -/
def pB : Point := ⟨⟨1, 0, 0⟩, ⟨10, 20, 30, 40⟩, none⟩

/-- Further sample point without an intensity. -/
def pC : Point := ⟨⟨2, 0, 0⟩, ⟨7, 7, 7, 7⟩, none⟩

/-- Translation by one unit along the first axis, a rigid transform. -/
def tShift : Isometry3 := ⟨Mat3.id, ⟨1, 0, 0⟩⟩

/-- The buffer-alignment invariant of the accumulator: color always matches
position in length, intensity never exceeds it. -/
def bufInv (s : PointStream) : Prop :=
  s.color.length = s.position.length ∧
    s.intensity.length ≤ s.position.length

/-- An arbitrary sequence of accumulator operations, for stating invariants
that hold after any interleaving of pushes and flushes. -/
inductive StreamOp where
  | push (p : Point)
  | flush

/-- Apply one accumulator operation to the state (the sink's verdict does not
influence the state, so flushing runs against the always-ok sink). -/
def applyOp (s : PointStream) : StreamOp → PointStream
  | StreamOp.push p => s.push_point p
  | StreamOp.flush => (s.callback okSink).1

/-- Run a sequence of accumulator operations from a given state. -/
def runOps : PointStream → List StreamOp → PointStream
  | s, [] => s
  | s, op :: rest => runOps (applyOp s op) rest

/-- A sink that always fails, for exercising the error path of the flush. -/
def errSink : PointData → Except Unit Unit := fun _ => Except.error ()

/-- A non-empty accumulator state: one point pushed into a fresh stream. -/
def sNonempty : PointStream := (PointStream.new 2 none).push_point pA

/-- The batch the accumulator emits for `[pA, pB]` at capacity 2: two
positions and two colors, but a single intensity value, because `pB` carries
none. -/
def pdMix : PointData :=
  ⟨[⟨0, 0, 0⟩, ⟨1, 0, 0⟩],
   [("color", LayerData.U8Vec4 [⟨1, 2, 3, 4⟩, ⟨10, 20, 30, 40⟩]),
    ("intensity", LayerData.F32 [5])]⟩

/-- Claim C6 as stated: in every non-empty emitted batch the color layer is
present and full-length, and the intensity layer, whenever present, has
length equal to the position length. -/
def c6_claim : Prop :=
  ∀ (cap : Nat) (lfg : Option Isometry3) (pts : List Point),
    ∀ pd ∈ allBatches cap lfg pts, pd.position ≠ [] →
      (∃ cl, pd.getLayer "color" = some (LayerData.U8Vec4 cl) ∧
        cl.length = pd.position.length) ∧
      (∀ il, pd.getLayer "intensity" = some (LayerData.F32 il) →
        il.length = pd.position.length)

/-- Claim C7 as stated: with `global_from_local` set, the emitted position
equals `local_from_global⁻¹` applied to the global position — where
`local_from_global` is the inverse of `global_from_local` — and applying
`global_from_local` to an emitted position recovers the global position. -/
def c7_claim : Prop :=
  ∀ gfl : Isometry3, gfl.IsRigid → ∀ p : V3,
    localPosition (derivedLocalFromGlobal ⟨PointLocation.AllPoints, some gfl⟩) p
        = (Isometry3.inverse (Isometry3.inverse gfl)).apply p ∧
    gfl.apply
      (localPosition (derivedLocalFromGlobal ⟨PointLocation.AllPoints, some gfl⟩) p)
        = p

theorem push_point_position_length (s : PointStream) (p : Point) :
    (s.push_point p).position.length = s.position.length + 1 := by
  simp [PointStream.push_point]

theorem push_point_cap (s : PointStream) (p : Point) :
    (s.push_point p).cap = s.cap := rfl

theorem bufInv_new (cap : Nat) (lfg : Option Isometry3) :
    bufInv (PointStream.new cap lfg) := by
  simp [bufInv, PointStream.new]

theorem bufInv_push_point (s : PointStream) (p : Point) (h : bufInv s) :
    bufInv (s.push_point p) := by
  obtain ⟨h1, h2⟩ := h
  cases hp : p.intensity <;>
    simp [bufInv, PointStream.push_point, hp, h1] <;> omega

theorem callback_fst_bufInv {ε : Type} (sink : PointData → Except ε Unit)
    (s : PointStream) (h : bufInv s) : bufInv ((s.callback sink).1) := by
  unfold PointStream.callback
  by_cases hpos : s.position = []
  · rw [if_pos hpos]; exact h
  · rw [if_neg hpos]; simp [bufInv]

theorem callback_fst_cap {ε : Type} (sink : PointData → Except ε Unit)
    (s : PointStream) : ((s.callback sink).1).cap = s.cap := by
  unfold PointStream.callback
  by_cases hpos : s.position = []
  · rw [if_pos hpos]
  · rw [if_neg hpos]

theorem emittedData_getLayer_color (s : PointStream) :
    (emittedData s).getLayer "color" = some (LayerData.U8Vec4 s.color) := by
  simp [emittedData, layersOf, PointData.getLayer, List.lookup]

theorem emittedData_getLayer_intensity (s : PointStream) :
    (emittedData s).getLayer "intensity" =
      (if s.intensity = [] then none else some (LayerData.F32 s.intensity)) := by
  have hne : (("intensity" : String) == "color") = false := by decide
  by_cases hi : s.intensity = [] <;>
    simp [emittedData, layersOf, PointData.getLayer, List.lookup, hne, hi]

theorem callback_emitted_eq {ε : Type} (sink : PointData → Except ε Unit)
    (s : PointStream) (pd : PointData) (h : (s.callback sink).2.1 = some pd) :
    pd = emittedData s ∧ s.position ≠ [] := by
  unfold PointStream.callback at h
  by_cases hpos : s.position = []
  · rw [if_pos hpos] at h; exact absurd h (by simp)
  · rw [if_neg hpos] at h
    simp only [Option.some.injEq] at h
    exact ⟨h.symm, hpos⟩

theorem callback_emits_of_nonempty {ε : Type} (sink : PointData → Except ε Unit)
    (s : PointStream) (h : s.position ≠ []) :
    (s.callback sink).2.1 = some (emittedData s) := by
  unfold PointStream.callback
  rw [if_neg h]

theorem callback_emitted_props {ε : Type} (sink : PointData → Except ε Unit)
    (st : PointStream) (hinv : bufInv st) :
    ∀ pd, (st.callback sink).2.1 = some pd →
      pd.position ≠ [] ∧
      (∃ cl, pd.getLayer "color" = some (LayerData.U8Vec4 cl) ∧
        cl.length = pd.position.length) ∧
      (∀ il, pd.getLayer "intensity" = some (LayerData.F32 il) →
        il ≠ [] ∧ il.length ≤ pd.position.length) := by
  intro pd h
  obtain ⟨rfl, hpos⟩ := callback_emitted_eq sink st pd h
  refine ⟨hpos, ⟨st.color, emittedData_getLayer_color st, ?_⟩, ?_⟩
  · exact hinv.1
  · intro il hil
    rw [emittedData_getLayer_intensity st] at hil
    by_cases hi : st.intensity = []
    · rw [if_pos hi] at hil; exact absurd hil (by simp)
    · rw [if_neg hi] at hil
      simp only [Option.some.injEq, LayerData.F32.injEq] at hil
      subst hil
      exact ⟨hi, hinv.2⟩

theorem ppac_fst_bufInv {ε : Type} (sink : PointData → Except ε Unit)
    (s : PointStream) (p : Point) (h : bufInv s) :
    bufInv ((s.push_point_and_callback sink p).1) := by
  unfold PointStream.push_point_and_callback
  by_cases hfull :
      (s.push_point p).position.length = (s.push_point p).cap
  · rw [if_pos hfull]
    exact callback_fst_bufInv sink _ (bufInv_push_point s p h)
  · rw [if_neg hfull]
    exact bufInv_push_point s p h

theorem ppac_emitted_props {ε : Type} (sink : PointData → Except ε Unit)
    (s : PointStream) (p : Point) (h : bufInv s) :
    ∀ pd, (s.push_point_and_callback sink p).2.1 = some pd →
      pd.position ≠ [] ∧
      (∃ cl, pd.getLayer "color" = some (LayerData.U8Vec4 cl) ∧
        cl.length = pd.position.length) ∧
      (∀ il, pd.getLayer "intensity" = some (LayerData.F32 il) →
        il ≠ [] ∧ il.length ≤ pd.position.length) := by
  intro pd hpd
  unfold PointStream.push_point_and_callback at hpd
  by_cases hfull :
      (s.push_point p).position.length = (s.push_point p).cap
  · rw [if_pos hfull] at hpd
    exact callback_emitted_props sink _ (bufInv_push_point s p h) pd hpd
  · rw [if_neg hfull] at hpd
    exact absurd hpd (by simp)

theorem streamRun_inv : ∀ (pts : List Point) (s : PointStream), bufInv s →
    bufInv ((streamRun s pts).1) ∧
    ∀ pd ∈ (streamRun s pts).2,
      pd.position ≠ [] ∧
      (∃ cl, pd.getLayer "color" = some (LayerData.U8Vec4 cl) ∧
        cl.length = pd.position.length) ∧
      (∀ il, pd.getLayer "intensity" = some (LayerData.F32 il) →
        il ≠ [] ∧ il.length ≤ pd.position.length) := by
  intro pts
  induction pts with
  | nil =>
    intro s h
    exact ⟨h, by simp [streamRun]⟩
  | cons p rest ih =>
    intro s h
    have hstep := ppac_fst_bufInv okSink s p h
    obtain ⟨htail1, htail2⟩ := ih _ hstep
    constructor
    · simpa [streamRun] using htail1
    · intro pd hmem
      simp only [streamRun, List.mem_append] at hmem
      rcases hmem with hmem | hmem
      · rcases Option.mem_toList.mp hmem with hsome
        exact ppac_emitted_props okSink s p h pd hsome
      · exact htail2 pd hmem

theorem ppac_len {ε : Type} (sink : PointData → Except ε Unit)
    (s : PointStream) (p : Point) (h1 : 1 ≤ s.cap)
    (h2 : s.position.length < s.cap) :
    ((s.push_point_and_callback sink p).1).cap = s.cap ∧
    ((s.push_point_and_callback sink p).1).position.length < s.cap ∧
    ∀ pd, (s.push_point_and_callback sink p).2.1 = some pd →
      pd.position.length = s.cap := by
  unfold PointStream.push_point_and_callback
  by_cases hfull :
      (s.push_point p).position.length = (s.push_point p).cap
  · rw [if_pos hfull]
    have hne : (s.push_point p).position ≠ [] := by
      intro hnil
      rw [push_point_cap] at hfull
      rw [hnil] at hfull
      simp at hfull
      omega
    refine ⟨?_, ?_, ?_⟩
    · rw [callback_fst_cap, push_point_cap]
    · unfold PointStream.callback
      rw [if_neg hne]
      simpa using h1
    · intro pd hpd
      obtain ⟨rfl, _⟩ := callback_emitted_eq sink _ pd hpd
      rw [push_point_cap] at hfull
      exact hfull
  · rw [if_neg hfull]
    rw [push_point_cap, push_point_position_length] at hfull
    refine ⟨push_point_cap s p, ?_, ?_⟩
    · rw [push_point_position_length]
      omega
    · intro pd hpd
      exact absurd hpd (by simp)

theorem streamRun_len : ∀ (pts : List Point) (s : PointStream), 1 ≤ s.cap →
    s.position.length < s.cap →
    ((streamRun s pts).1).cap = s.cap ∧
    ((streamRun s pts).1).position.length < s.cap ∧
    ∀ pd ∈ (streamRun s pts).2, pd.position.length = s.cap := by
  intro pts
  induction pts with
  | nil =>
    intro s h1 h2
    exact ⟨rfl, h2, by simp [streamRun]⟩
  | cons p rest ih =>
    intro s h1 h2
    obtain ⟨hc, hl, hemit⟩ := ppac_len okSink s p h1 h2
    obtain ⟨ihc, ihl, ihemit⟩ := ih _ (hc ▸ h1) (hc ▸ hl)
    refine ⟨?_, ?_, ?_⟩
    · simpa [streamRun, hc] using ihc
    · simpa [streamRun, hc] using ihl
    · intro pd hmem
      simp only [streamRun, List.mem_append] at hmem
      rcases hmem with hmem | hmem
      · exact hemit pd (Option.mem_toList.mp hmem)
      · rw [← hc]
        exact ihemit pd hmem

theorem runOps_bufInv : ∀ (ops : List StreamOp) (s : PointStream),
    bufInv s → bufInv (runOps s ops) := by
  intro ops
  induction ops with
  | nil => intro s h; exact h
  | cons op rest ih =>
    intro s h
    cases op with
    | push p => exact ih _ (bufInv_push_point s p h)
    | flush => exact ih _ (callback_fst_bufInv okSink s h)

/-- Claim C10: after any sequence of push and flush operations the color
buffer has the same length as the position buffer and the intensity buffer is
never longer; each push appends exactly one position and one color and at
most one intensity value. -/
theorem c10_buffer_length_invariant (cap : Nat) (lfg : Option Isometry3)
    (ops : List StreamOp) :
    ((runOps (PointStream.new cap lfg) ops).color.length =
        (runOps (PointStream.new cap lfg) ops).position.length ∧
      (runOps (PointStream.new cap lfg) ops).intensity.length ≤
        (runOps (PointStream.new cap lfg) ops).position.length) ∧
    ∀ (s : PointStream) (p : Point),
      (s.push_point p).position.length = s.position.length + 1 ∧
      (s.push_point p).color.length = s.color.length + 1 ∧
      (s.push_point p).intensity.length ≤ s.intensity.length + 1 := by
  constructor
  · exact runOps_bufInv ops _ (bufInv_new cap lfg)
  · intro s p
    refine ⟨push_point_position_length s p, ?_, ?_⟩
    · simp [PointStream.push_point]
    · cases hp : p.intensity <;> simp [PointStream.push_point, hp]

/-- Claim C5: every batch a stream delivers has at most `cap` positions; the
batches emitted while pushing have exactly `cap`, and only the batch of the
final flush is strictly smaller. -/
theorem c5_batch_size_invariant (cap : Nat) (lfg : Option Isometry3)
    (pts : List Point) (hcap : 1 ≤ cap) :
    (∀ pd ∈ allBatches cap lfg pts, pd.position.length ≤ cap) ∧
    (∀ pd ∈ (streamRun (PointStream.new cap lfg) pts).2,
      pd.position.length = cap) ∧
    (∀ pd,
      ((streamRun (PointStream.new cap lfg) pts).1.callback okSink).2.1 = some pd →
      pd.position.length < cap) := by
  have h0 : (PointStream.new cap lfg).position.length < cap := by
    simp [PointStream.new]
    omega
  obtain ⟨hc, hl, hemit⟩ := streamRun_len pts (PointStream.new cap lfg) hcap h0
  have hfinal : ∀ pd,
      ((streamRun (PointStream.new cap lfg) pts).1.callback okSink).2.1 = some pd →
      pd.position.length < cap := by
    intro pd hpd
    obtain ⟨rfl, _⟩ := callback_emitted_eq okSink _ pd hpd
    exact hl
  refine ⟨?_, hemit, hfinal⟩
  intro pd hmem
  simp only [allBatches, List.mem_append] at hmem
  rcases hmem with hmem | hmem
  · exact Nat.le_of_eq (hemit pd hmem)
  · exact Nat.le_of_lt (hfinal pd (Option.mem_toList.mp hmem))

/-- Witness for C5 at capacity 2 on three points. -/
theorem c5_batch_size_invariant_witness :
    1 ≤ 2 ∧
    ((∀ pd ∈ allBatches 2 none [pA, pB, pC], pd.position.length ≤ 2) ∧
      (∀ pd ∈ (streamRun (PointStream.new 2 none) [pA, pB, pC]).2,
        pd.position.length = 2) ∧
      (∀ pd,
        ((streamRun (PointStream.new 2 none) [pA, pB, pC]).1.callback okSink).2.1
            = some pd →
        pd.position.length < 2)) :=
  ⟨by omega, c5_batch_size_invariant 2 none [pA, pB, pC] (by omega)⟩

/-- Counterexample to claim C6 as stated: at capacity 2, pushing one point
with an intensity and one without emits a batch whose intensity layer is
present with length 1 while the batch holds 2 positions. -/
theorem c6_counterexample : ¬ c6_claim := by
  intro h
  have hmem : pdMix ∈ allBatches 2 none [pA, pB] := by decide
  have h2 := (h 2 none [pA, pB] pdMix hmem (by decide)).2 [5] (by decide)
  exact absurd h2 (by decide)

/-- Claim C6 amended: in every non-empty emitted batch the color layer is
present and full-length; the intensity layer, when present, is non-empty and
its length is at most the position length (equality can fail when some
points of the batch carry no intensity). -/
theorem c6_amended_layer_alignment (cap : Nat) (lfg : Option Isometry3)
    (pts : List Point) :
    ∀ pd ∈ allBatches cap lfg pts, pd.position ≠ [] →
      (∃ cl, pd.getLayer "color" = some (LayerData.U8Vec4 cl) ∧
        cl.length = pd.position.length) ∧
      (∀ il, pd.getLayer "intensity" = some (LayerData.F32 il) →
        il ≠ [] ∧ il.length ≤ pd.position.length) := by
  intro pd hmem _
  obtain ⟨hinv, hprops⟩ :=
    streamRun_inv pts (PointStream.new cap lfg) (bufInv_new cap lfg)
  simp only [allBatches, List.mem_append] at hmem
  rcases hmem with hmem | hmem
  · exact ⟨(hprops pd hmem).2.1, (hprops pd hmem).2.2⟩
  · have hp :=
      callback_emitted_props okSink _ hinv pd (Option.mem_toList.mp hmem)
    exact ⟨hp.2.1, hp.2.2⟩

/-- Witness for the amended C6 at the mixed-intensity batch. -/
theorem c6_amended_witness :
    pdMix ∈ allBatches 2 none [pA, pB] ∧ pdMix.position ≠ [] ∧
    ((∃ cl, pdMix.getLayer "color" = some (LayerData.U8Vec4 cl) ∧
        cl.length = pdMix.position.length) ∧
      (∀ il, pdMix.getLayer "intensity" = some (LayerData.F32 il) →
        il ≠ [] ∧ il.length ≤ pdMix.position.length)) :=
  ⟨by decide, by decide,
    c6_amended_layer_alignment 2 none [pA, pB] pdMix (by decide) (by decide)⟩

/-- Claim C8: flushing an empty accumulator succeeds without invoking the
sink and without touching the state; otherwise the sink receives exactly the
buffered values — color always, intensity iff any were pushed — the flush
returns the sink's verdict, and every buffer is empty afterwards (the
transform and the capacity are kept), whatever the sink returned. -/
theorem c8_flush_contract {ε : Type} (sink : PointData → Except ε Unit)
    (s : PointStream) :
    (s.position = [] → s.callback sink = (s, none, Except.ok ())) ∧
    (∀ pd, (s.callback sink).2.1 = some pd →
      pd.position = s.position ∧
      pd.getLayer "color" = some (LayerData.U8Vec4 s.color) ∧
      pd.getLayer "intensity" =
        (if s.intensity = [] then none else some (LayerData.F32 s.intensity)) ∧
      (s.callback sink).2.2 = sink pd ∧
      ((s.callback sink).1).position = [] ∧
      ((s.callback sink).1).color = [] ∧
      ((s.callback sink).1).intensity = [] ∧
      ((s.callback sink).1).local_from_global = s.local_from_global ∧
      ((s.callback sink).1).cap = s.cap) ∧
    (s.position ≠ [] → ((s.callback sink).2.1).isSome = true) := by
  refine ⟨?_, ?_, ?_⟩
  · intro h
    unfold PointStream.callback
    rw [if_pos h]
  · intro pd hpd
    obtain ⟨rfl, hne⟩ := callback_emitted_eq sink s pd hpd
    have hcb : s.callback sink =
        ({ s with position := [], color := [], intensity := [] },
          some (emittedData s), sink (emittedData s)) := by
      unfold PointStream.callback
      rw [if_neg hne]
    rw [hcb]
    exact ⟨rfl, emittedData_getLayer_color s, emittedData_getLayer_intensity s,
      rfl, rfl, rfl, rfl, rfl, rfl⟩
  · intro hne
    rw [callback_emits_of_nonempty sink s hne]
    rfl

/-- Witness for C8: a non-empty state flushed into a failing sink does emit. -/
theorem c8_flush_contract_witness :
    sNonempty.position ≠ [] ∧
    ((sNonempty.callback errSink).2.1).isSome = true :=
  ⟨by decide, (c8_flush_contract errSink sNonempty).2.2 (by decide)⟩

/-- Claim C9: for a query whose location is AllPoints the culling predicate
accepts every point, whether or not `global_from_local` is set; and
transforming the all-accepting predicate yields an all-accepting predicate. -/
theorem c9_allpoints_accepts_all (q : PointQuery)
    (h : q.location = PointLocation.AllPoints) (p : V3) :
    (q.get_point_culling).contains p = true ∧
    ∀ g : Isometry3, (PointCulling.transform AllPoints g).contains p = true := by
  constructor
  · simp [PointQuery.get_point_culling, h, AllPoints]
  · intro g
    rfl

/-- Witness for C9 at a query that does carry a transform. -/
theorem c9_allpoints_accepts_all_witness :
    (⟨PointLocation.AllPoints, some tShift⟩ : PointQuery).location
        = PointLocation.AllPoints ∧
    ((⟨PointLocation.AllPoints, some tShift⟩ : PointQuery).get_point_culling).contains
        ⟨7, 8, 9⟩ = true ∧
    (PointCulling.transform AllPoints tShift).contains ⟨7, 8, 9⟩ = true :=
  ⟨rfl,
    (c9_allpoints_accepts_all ⟨PointLocation.AllPoints, some tShift⟩ rfl ⟨7, 8, 9⟩).1,
    (c9_allpoints_accepts_all ⟨PointLocation.AllPoints, some tShift⟩ rfl ⟨7, 8, 9⟩).2 tShift⟩

theorem tShift_rigid : tShift.IsRigid := by
  unfold Isometry3.IsRigid
  constructor <;> simp [tShift, Mat3.mul, Mat3.transpose, Mat3.id]

/-- Counterexample to claim C7 as stated: for the unit translation the
emitted position of the origin is (-1,0,0), while `local_from_global⁻¹`
applied to the origin is (1,0,0). -/
theorem c7_counterexample : ¬ c7_claim := by
  intro h
  have h1 := (h tShift tShift_rigid ⟨0, 0, 0⟩).1
  simp [localPosition, derivedLocalFromGlobal, tShift, Isometry3.inverse,
    Isometry3.apply, Mat3.transpose, Mat3.mulVec, Mat3.id, V3.add, V3.neg] at h1
  exact absurd h1 (by norm_num)

/-- Claim C7 amended: the emitted position equals `local_from_global`
(the inverse of `global_from_local`) applied to the global position, and
applying `global_from_local` to the emitted position recovers the global
position. -/
theorem c7_amended_local_frame (gfl : Isometry3) (h : gfl.IsRigid) (p : V3) :
    localPosition (derivedLocalFromGlobal ⟨PointLocation.AllPoints, some gfl⟩) p
        = gfl.inverse.apply p ∧
    gfl.apply
      (localPosition (derivedLocalFromGlobal ⟨PointLocation.AllPoints, some gfl⟩) p)
        = p := by
  constructor
  · rfl
  · obtain ⟨⟨r11, r12, r13, r21, r22, r23, r31, r32, r33⟩, ⟨tx, ty, tz⟩⟩ := gfl
    obtain ⟨h1, _⟩ := h
    obtain ⟨px, py, pz⟩ := p
    simp only [Mat3.mul, Mat3.transpose, Mat3.id, Mat3.mk.injEq] at h1
    obtain ⟨e11, e12, e13, e21, e22, e23, e31, e32, e33⟩ := h1
    simp only [localPosition, derivedLocalFromGlobal, Option.map,
      Isometry3.inverse, Isometry3.apply, Mat3.transpose, Mat3.mulVec,
      V3.add, V3.neg, V3.mk.injEq]
    refine ⟨?_, ?_, ?_⟩
    · linear_combination (px - tx) * e11 + (py - ty) * e12 + (pz - tz) * e13
    · linear_combination (px - tx) * e21 + (py - ty) * e22 + (pz - tz) * e23
    · linear_combination (px - tx) * e31 + (py - ty) * e32 + (pz - tz) * e33

/-- Witness for the amended C7 at the unit translation. -/
theorem c7_amended_witness :
    tShift.IsRigid ∧
    (localPosition (derivedLocalFromGlobal ⟨PointLocation.AllPoints, some tShift⟩)
          ⟨2, 3, 4⟩
        = tShift.inverse.apply ⟨2, 3, 4⟩ ∧
      tShift.apply
        (localPosition (derivedLocalFromGlobal ⟨PointLocation.AllPoints, some tShift⟩)
          ⟨2, 3, 4⟩)
          = ⟨2, 3, 4⟩) :=
  ⟨tShift_rigid, c7_amended_local_frame tShift tShift_rigid ⟨2, 3, 4⟩⟩

/-- Claim C1, code bug evidence: the single worker finishes (`done`) and the
channel is fully drained, yet the call does not return — the original sender
is never dropped, so the drain blocks forever (`none`). -/
theorem c1_call_never_returns :
    (workerRun 1 none (fun _ => true) [pA]).1 = WorkerExit.done ∧
    tryForEachBatchSeq ⟨PointLocation.AllPoints, none⟩ 1 [[pA]]
      (fun _ => (Except.ok () : Except Unit Unit)) = none :=
  ⟨by decide, rfl⟩

/-- Claim C2, code bug evidence: when the send fails, the worker exits with
`earlyReturn`, which carries no error — the Grpc error produced by the failed
send is discarded, not surfaced anywhere. -/
theorem c2_worker_swallows_send_error :
    workerRun 1 none (fun _ => false) [pA] = (WorkerExit.earlyReturn, []) ∧
    send_func (fun _ => false) 0
        (emittedData ((PointStream.new 1 none).push_point pA))
        = Except.error ChannelError.grpc :=
  ⟨by decide, rfl⟩

/-- Claim C3, code bug evidence: with capacity 2 and three points, the final
flush's send fails (receiver gone after the first batch) and the worker
panics on the `unwrap`; joining such a worker panics the whole call. -/
theorem c3_final_flush_panics :
    (workerRun 2 none (fun k => k == 0) [pA, pB, pC]).1 = WorkerExit.panicked ∧
    ((workerRun 2 none (fun k => k == 0) [pA, pB, pC]).2).length = 1 ∧
    scopeJoin [(workerRun 2 none (fun k => k == 0) [pA, pB, pC]).1]
      (some (Except.error ChannelError.grpc)) = CallResult.panicked :=
  ⟨by decide, by decide, rfl⟩

/-- Claim C4, code bug evidence: with zero matching nodes the call hangs
(`none`) instead of returning success; had the original sender been dropped
before the drain, the same empty arrival list would have produced success
with zero callback invocations. -/
theorem c4_zero_node_query_hangs :
    tryForEachBatchSeq ⟨PointLocation.AllPoints, none⟩ 2 []
      (fun _ => (Except.ok () : Except Unit Unit)) = none ∧
    consumerLoop (fun _ => (Except.ok () : Except Unit Unit)) true []
        = some (Except.ok ()) :=
  ⟨rfl, rfl⟩
